import Mathlib

/-!
Verification of the feature-engineering and label-construction pipeline of
`preprocess_climate_data.py` (climate-anomaly prediction repository).

The embedding models the pipeline after the external spatial reduction:
a dataframe is a list of rows, a cell is `Option ℝ` (`none` = NaN / missing),
column presence is tracked by Booleans on the frame, and floating-point
arithmetic is modelled over the reals.
-/

open Real

/-- One spatially-reduced row of the local (ERA5) dataframe: a timestamp and
one cell per variable; `none` models a NaN cell. -/
structure LocalRow where
  time : ℤ
  t2m : Option ℝ
  d2m : Option ℝ
  sp : Option ℝ
  ssrd : Option ℝ

/-- The local dataframe: its rows plus which variable columns exist at all
(a pandas column can be absent, which is different from holding NaN). -/
structure LocalFrame where
  hasT2m : Bool
  hasD2m : Bool
  hasSp : Bool
  hasSsrd : Bool
  rows : List LocalRow

/-- One spatially-reduced row of the teleconnection (SST) dataframe. -/
structure SstRow where
  time : ℤ
  sst : Option ℝ

/-- One row of `df_final`, the inner join of the local frame (with the derived
relative-humidity column) and the SST frame. -/
structure JoinedRow where
  time : ℤ
  t2m : Option ℝ
  d2m : Option ℝ
  sp : Option ℝ
  ssrd : Option ℝ
  rh : Option ℝ
  sst : Option ℝ

/-- One row of `df_model`: the four selected features (all present after
`dropna`) and the binary target. -/
structure ModelRow where
  time : ℤ
  sst : ℝ
  rh : ℝ
  sp : ℝ
  ssrd : ℝ
  target : ℕ

/-- Magnus-Tetens relative humidity, exactly as `calculate_relative_humidity`
in the source: inputs in Kelvin, converted to Celsius, then
`100 * exp(17.625*TD/(243.04+TD)) / exp(17.625*T/(243.04+T))`. -/
noncomputable def calculate_relative_humidity (t2m d2m : ℝ) : ℝ :=
  let T := t2m - 273.15
  let TD := d2m - 273.15
  100 * (Real.exp ((17.625 * TD) / (243.04 + TD)) / Real.exp ((17.625 * T) / (243.04 + T)))

/-- Vectorised cell arithmetic: the relative-humidity cell is NaN whenever
either source cell is NaN. -/
noncomputable def rhCell (t d : Option ℝ) : Option ℝ :=
  match t, d with
  | some a, some b => some (calculate_relative_humidity a b)
  | _, _ => none

/-- The inner join `df_uber.join(df_sst[['sst']], how='inner')`: for each local
row, in the local order, one joined row per SST row with an equal timestamp.
`hasRH` records whether the relative-humidity column was added (it is added
exactly when both `t2m` and `d2m` columns exist). -/
noncomputable def joinRows (hasRH : Bool) (us : List LocalRow) (ss : List SstRow) :
    List JoinedRow :=
  us.flatMap fun u =>
    (ss.filter fun s => s.time == u.time).map fun s =>
      { time := u.time, t2m := u.t2m, d2m := u.d2m, sp := u.sp, ssrd := u.ssrd,
        rh := if hasRH then rhCell u.t2m u.d2m else none, sst := s.sst }

/-- The non-NaN `t2m` cells of the joined frame (pandas statistics skip NaN). -/
def t2mCells (joined : List JoinedRow) : List ℝ :=
  joined.filterMap fun j => j.t2m

/-- Pandas `Series.mean`: NaN (here `none`) on an empty series. -/
noncomputable def pandasMean (l : List ℝ) : Option ℝ :=
  if l.length = 0 then none else some (l.sum / l.length)

/-- Pandas `Series.std` with its default `ddof = 1`: the sample standard
deviation, NaN (`none`) when fewer than two values are present. -/
noncomputable def pandasStd (l : List ℝ) : Option ℝ :=
  if l.length < 2 then none
  else some (Real.sqrt ((l.map fun x => (x - l.sum / l.length) ^ 2).sum / ((l.length : ℝ) - 1)))

/-- The anomaly threshold `df_final['t2m'].mean() + 2 * df_final['t2m'].std()`;
`none` models a NaN threshold. -/
noncomputable def thresholdOf (joined : List JoinedRow) : Option ℝ :=
  match pandasMean (t2mCells joined), pandasStd (t2mCells joined) with
  | some m, some s => some (m + 2 * s)
  | _, _ => none

/-- The label `(t2m > threshold).astype(int)`: any comparison involving NaN is
false, so a missing threshold or a missing `t2m` cell yields 0. -/
noncomputable def labelOf (th : Option ℝ) (x : Option ℝ) : ℕ :=
  match th, x with
  | some t, some v => if t < v then 1 else 0
  | _, _ => 0

/-- The `dropna` predicate on the four selected feature columns
`['sst', 'relative_humidity', 'sp', 'ssrd']`. -/
def fourPresent (j : JoinedRow) : Bool :=
  j.sst.isSome && j.rh.isSome && j.sp.isSome && j.ssrd.isSome

/-- Build one `df_model` row from a surviving joined row: the four feature
cells (all present after `dropna`) and the target from the threshold test. -/
noncomputable def toModelRow (th : Option ℝ) (j : JoinedRow) : ModelRow :=
  { time := j.time, sst := j.sst.getD 0, rh := j.rh.getD 0, sp := j.sp.getD 0,
    ssrd := j.ssrd.getD 0, target := labelOf th j.t2m }

/-- `df_model = df_final[features].dropna()` followed by the target column,
with the threshold statistics taken over the whole joined frame. -/
noncomputable def buildModel (joined : List JoinedRow) : List ModelRow :=
  (joined.filter fourPresent).map (toModelRow (thresholdOf joined))

/-- The failure modes of `preprocess_data`: the missing-file early return, and
the `KeyError` raised by `df_final[features]` when a selected column does not
exist. -/
inductive PipeError where
  | missingInput : PipeError
  | keyError : PipeError
deriving DecidableEq

/-- `preprocess_data`: checks that both input paths exist before touching any
content, adds the relative-humidity column exactly when both `t2m` and `d2m`
columns exist, joins on timestamps, and selects the four features (raising a
`KeyError` if any selected column is absent) with `dropna` and the target. -/
noncomputable def preprocess_data (existsEra5 existsSst : Bool) (uber : LocalFrame)
    (ss : List SstRow) : Except PipeError (List ModelRow) :=
  if !existsEra5 || !existsSst then Except.error PipeError.missingInput
  else
    let hasRH := uber.hasT2m && uber.hasD2m
    let joined := joinRows hasRH uber.rows ss
    if hasRH && uber.hasSp && uber.hasSsrd then Except.ok (buildModel joined)
    else Except.error PipeError.keyError

/-- Column minimum of a feature column (columns are nonempty in use). -/
noncomputable def colMin : List ℝ → ℝ
  | [] => 0
  | x :: xs => xs.foldl min x

/-- Column maximum of a feature column. -/
noncomputable def colMax : List ℝ → ℝ
  | [] => 0
  | x :: xs => xs.foldl max x

/-- Sklearn `MinMaxScaler(feature_range=(0, π))` on one column: the data range
is the column max minus the column min, a zero range is replaced by 1 (sklearn
`_handle_zeros_in_scale`), and each value maps to `(x - min) / range * π`. -/
noncomputable def minmaxScale (col : List ℝ) : List ℝ :=
  let m := colMin col
  let M := colMax col
  let d := if M - m = 0 then 1 else M - m
  col.map fun x => (x - m) / d * Real.pi

/-- One-hot encoding of one target value, as the source writes it: a `[0, 0]`
row with the entry at index `val` set to 1. -/
noncomputable def oneHot (v : ℕ) : List ℝ :=
  ([0, 0] : List ℝ).set v 1

/-- Rebuild the feature matrix rows from the four scaled columns. -/
noncomputable def zip4 : List ℝ → List ℝ → List ℝ → List ℝ → List (List ℝ)
  | a :: as, b :: bs, c :: cs, d :: ds => [a, b, c, d] :: zip4 as bs cs ds
  | _, _, _, _ => []

/-- The fixed feature order of one `df_model` row, as consumed by the scaler:
`['sst', 'relative_humidity', 'sp', 'ssrd']`. -/
def featureVec (r : ModelRow) : List ℝ :=
  [r.sst, r.rh, r.sp, r.ssrd]

/-- `prepare_for_quantum`: each feature column rescaled independently to
`[0, π]`, and the target one-hot encoded into width-2 rows. -/
noncomputable def prepare_for_quantum (df : List ModelRow) :
    List (List ℝ) × List (List ℝ) :=
  ( zip4 (minmaxScale (df.map fun r => r.sst)) (minmaxScale (df.map fun r => r.rh))
      (minmaxScale (df.map fun r => r.sp)) (minmaxScale (df.map fun r => r.ssrd))
  , df.map fun r => oneHot r.target )

/-- The `__main__` block: artifacts (`X`, `y`) are produced exactly when
`preprocess_data` succeeds. -/
noncomputable def mainArtifacts (e1 e2 : Bool) (uber : LocalFrame) (ss : List SstRow) :
    Option (List (List ℝ) × List (List ℝ)) :=
  match preprocess_data e1 e2 uber ss with
  | Except.ok df => some (prepare_for_quantum df)
  | Except.error _ => none

/-- Population standard deviation, written from the spec sentence that the
label threshold uses population statistics (denominator `n`, not `n - 1`);
kept separate from `pandasStd` so the two can be compared. -/
noncomputable def specPopulationStd (l : List ℝ) : ℝ :=
  Real.sqrt ((l.map fun x => (x - l.sum / l.length) ^ 2).sum / l.length)

/-- The spec-side labeling threshold: population mean plus two population
standard deviations. -/
noncomputable def specPopulationThreshold (l : List ℝ) : ℝ :=
  l.sum / l.length + 2 * specPopulationStd l

/-- Local frame for the labeling counterexample: six rows with `t2m` values
`0, 0, 0, 0, 3, 9`, every variable column present and every cell non-NaN. -/
noncomputable def uber6 : LocalFrame :=
  { hasT2m := true, hasD2m := true, hasSp := true, hasSsrd := true,
    rows := [ { time := 0, t2m := some 0, d2m := some 0, sp := some 0, ssrd := some 0 },
              { time := 1, t2m := some 0, d2m := some 0, sp := some 0, ssrd := some 0 },
              { time := 2, t2m := some 0, d2m := some 0, sp := some 0, ssrd := some 0 },
              { time := 3, t2m := some 0, d2m := some 0, sp := some 0, ssrd := some 0 },
              { time := 4, t2m := some 3, d2m := some 3, sp := some 0, ssrd := some 0 },
              { time := 5, t2m := some 9, d2m := some 9, sp := some 0, ssrd := some 0 } ] }

/-- SST frame matching every timestamp of `uber6`. -/
noncomputable def ss6 : List SstRow :=
  [ { time := 0, sst := some 0 }, { time := 1, sst := some 0 },
    { time := 2, sst := some 0 }, { time := 3, sst := some 0 },
    { time := 4, sst := some 0 }, { time := 5, sst := some 0 } ]

/-- A joined row with every feature present and `t2m = 0`. -/
noncomputable def jW1 : JoinedRow :=
  { time := 0, t2m := some 0, d2m := some 0, sp := some 1, ssrd := some 1,
    rh := some 1, sst := some 1 }

/-- A joined row with every feature present and `t2m = 10`. -/
noncomputable def jW2 : JoinedRow :=
  { time := 1, t2m := some 10, d2m := some 0, sp := some 1, ssrd := some 1,
    rh := some 1, sst := some 1 }

/-- A two-row joined frame for instantiating the labeling theorem. -/
noncomputable def joinedW : List JoinedRow := [jW1, jW2]

/-- Local rows with timestamps 1, 2, 3 for the join example. -/
noncomputable def exLocal : List LocalRow :=
  [ { time := 1, t2m := some 0, d2m := some 0, sp := some 0, ssrd := some 0 },
    { time := 2, t2m := some 0, d2m := some 0, sp := some 0, ssrd := some 0 },
    { time := 3, t2m := some 0, d2m := some 0, sp := some 0, ssrd := some 0 } ]

/-- SST rows with timestamps 2, 3, 4 for the join example. -/
noncomputable def exSst : List SstRow :=
  [ { time := 2, sst := some 0 }, { time := 3, sst := some 0 },
    { time := 4, sst := some 0 } ]

/-- Dataset whose `sst` column is constant (zero variance) for the degenerate
rescaling counterexample. -/
noncomputable def dfC8 : List ModelRow :=
  [ { time := 0, sst := 1, rh := 0, sp := 0, ssrd := 0, target := 0 },
    { time := 1, sst := 1, rh := 1, sp := 1, ssrd := 1, target := 1 } ]

/-- Dataset with one label of each value for the one-hot witness. -/
noncomputable def dfW4 : List ModelRow :=
  [ { time := 0, sst := 0, rh := 0, sp := 0, ssrd := 0, target := 0 },
    { time := 1, sst := 0, rh := 0, sp := 0, ssrd := 0, target := 1 } ]

/-- Local frame whose `d2m` column is absent (the humidity inputs are not both
present). -/
noncomputable def uber9 : LocalFrame :=
  { hasT2m := true, hasD2m := false, hasSp := true, hasSsrd := true,
    rows := [ { time := 0, t2m := some 300, d2m := none, sp := some 0, ssrd := some 0 } ] }

/-- SST frame for the absent-column example. -/
noncomputable def ss9 : List SstRow := [ { time := 0, sst := some 1 } ]

/-- An empty local frame for the missing-file witness. -/
noncomputable def uberEmpty : LocalFrame :=
  { hasT2m := true, hasD2m := true, hasSp := true, hasSsrd := true, rows := [] }

/-- A joined row whose four features are present but whose `t2m` cell is NaN. -/
noncomputable def j10 : JoinedRow :=
  { time := 0, t2m := none, d2m := some 0, sp := some 2, ssrd := some 3,
    rh := some 4, sst := some 5 }

/-- Singleton joined frame around `j10`. -/
noncomputable def joined10 : List JoinedRow := [j10]

/-- A surviving joined row yields its model row in `buildModel`. -/
theorem mem_buildModel (joined : List JoinedRow) (j : JoinedRow)
    (hmem : j ∈ joined) (hfour : fourPresent j = true) :
    toModelRow (thresholdOf joined) j ∈ buildModel joined :=
  List.mem_map_of_mem _ (List.mem_filter.mpr ⟨hmem, hfour⟩)

/-- C5: if either input path does not exist, `preprocess_data` fails with the
missing-input error, the result does not depend on any file content (the check
precedes any parsing), and `__main__` produces no output artifact. -/
theorem C5_missing_input (e1 e2 : Bool) (uber : LocalFrame) (ss : List SstRow)
    (h : e1 = false ∨ e2 = false) :
    preprocess_data e1 e2 uber ss = Except.error PipeError.missingInput ∧
    (∀ (uber2 : LocalFrame) (ss2 : List SstRow),
      preprocess_data e1 e2 uber2 ss2 = Except.error PipeError.missingInput) ∧
    mainArtifacts e1 e2 uber ss = none := by
  have key : ∀ (u : LocalFrame) (s : List SstRow),
      preprocess_data e1 e2 u s = Except.error PipeError.missingInput := by
    intro u s
    rcases h with h | h <;> subst h <;> simp [preprocess_data]
  refine ⟨key uber ss, key, ?_⟩
  simp [mainArtifacts, key uber ss]

/-- Witness for C5 at a concrete missing first input. -/
theorem C5_missing_input_witness :
    preprocess_data false true uberEmpty [] = Except.error PipeError.missingInput ∧
    mainArtifacts false true uberEmpty [] = none :=
  ⟨(C5_missing_input false true uberEmpty [] (Or.inl rfl)).1,
   (C5_missing_input false true uberEmpty [] (Or.inl rfl)).2.2⟩

/-- C6: exactly the four features `[sst, relative humidity, sp, ssrd]` are kept
in that order, rows missing any of them are dropped whole, and the output row
count equals the join row count minus the incomplete rows (so it never exceeds
the join count); on complete inputs the pipeline returns exactly this table. -/
theorem C6_feature_selection (joined : List JoinedRow) :
    (buildModel joined).length ≤ joined.length ∧
    (buildModel joined).length + (joined.filter fun j => !fourPresent j).length
      = joined.length ∧
    buildModel joined
      = (joined.filter fourPresent).map (toModelRow (thresholdOf joined)) ∧
    (∀ (th : Option ℝ) (j : JoinedRow),
      featureVec (toModelRow th j)
        = [j.sst.getD 0, j.rh.getD 0, j.sp.getD 0, j.ssrd.getD 0]) ∧
    ∀ (rows : List LocalRow) (ss : List SstRow),
      preprocess_data true true ⟨true, true, true, true, rows⟩ ss
        = Except.ok (buildModel (joinRows true rows ss)) := by
  have hlen : (buildModel joined).length = (joined.filter fourPresent).length := by
    simp [buildModel]
  refine ⟨?_, ?_, rfl, fun th j => rfl, fun rows ss => rfl⟩
  · rw [hlen]; exact List.length_filter_le _ _
  · rw [hlen]
    have := List.length_eq_length_filter_add (l := joined) fourPresent
    omega

/-- C9 (amended): the relative-humidity column is computed with the Magnus
formula exactly when both `t2m` and `d2m` columns are present; when either is
absent the pipeline fails at feature selection with the key error rather than
continuing silently. -/
theorem C9_humidity_presence (uber : LocalFrame) (ss : List SstRow) :
    (∀ j ∈ joinRows (uber.hasT2m && uber.hasD2m) uber.rows ss,
      j.rh = if uber.hasT2m && uber.hasD2m then rhCell j.t2m j.d2m else none) ∧
    ((uber.hasT2m && uber.hasD2m) = false →
      preprocess_data true true uber ss = Except.error PipeError.keyError) := by
  constructor
  · intro j hj
    simp only [joinRows, List.mem_flatMap, List.mem_map, List.mem_filter] at hj
    obtain ⟨u, hu, s, hs, rfl⟩ := hj
    rfl
  · intro h
    simp [preprocess_data, h]

/-- Counterexample for C9 as stated: with `d2m` absent, the pipeline does
raise an error (the feature-selection key error) instead of proceeding. -/
theorem C9_counterexample :
    uber9.hasT2m = true ∧ uber9.hasD2m = false ∧
    preprocess_data true true uber9 ss9 = Except.error PipeError.keyError := by
  refine ⟨rfl, rfl, ?_⟩
  simp [preprocess_data, uber9]

/-- Witness for C9 (amended), discharging its implication at `uber9`. -/
theorem C9_humidity_presence_witness :
    preprocess_data true true uber9 ss9 = Except.error PipeError.keyError :=
  (C9_humidity_presence uber9 ss9).2 rfl

/-- C10: a joined row with the four features present but a NaN `t2m` cell
survives the drop and receives label 0, because NaN fails the strict
threshold comparison. -/
theorem C10_missing_t2m_label (joined : List JoinedRow) (j : JoinedRow)
    (hmem : j ∈ joined) (hfour : fourPresent j = true) (ht : j.t2m = none) :
    toModelRow (thresholdOf joined) j ∈ buildModel joined ∧
    (toModelRow (thresholdOf joined) j).target = 0 := by
  refine ⟨mem_buildModel joined j hmem hfour, ?_⟩
  simp only [toModelRow, labelOf, ht]
  cases thresholdOf joined <;> rfl

/-- Witness for C10 at the singleton frame around `j10`. -/
theorem C10_missing_t2m_label_witness :
    toModelRow (thresholdOf joined10) j10 ∈ buildModel joined10 ∧
    (toModelRow (thresholdOf joined10) j10).target = 0 :=
  C10_missing_t2m_label joined10 j10 (by simp [joined10]) rfl rfl

/-- C4: the one-hot label matrix has one row per dataset row; every row has
width 2 and sums to 1; label 0 encodes as `[1, 0]` and label 1 as `[0, 1]`. -/
theorem C4_one_hot (df : List ModelRow) (h : ∀ r ∈ df, r.target ≤ 1) :
    ((prepare_for_quantum df).2).length = df.length ∧
    (∀ row ∈ (prepare_for_quantum df).2, row.length = 2 ∧ row.sum = 1) ∧
    (prepare_for_quantum df).2
      = df.map fun r => if r.target = 1 then [0, 1] else [1, 0] := by
  have hone : ∀ r ∈ df,
      oneHot r.target = if r.target = 1 then ([0, 1] : List ℝ) else [1, 0] := by
    intro r hr
    rcases Nat.le_one_iff_eq_zero_or_eq_one.mp (h r hr) with h0 | h1
    · simp [oneHot, h0]
    · simp [oneHot, h1]
  refine ⟨by simp [prepare_for_quantum], ?_, ?_⟩
  · intro row hrow
    simp only [prepare_for_quantum, List.mem_map] at hrow
    obtain ⟨r, hr, rfl⟩ := hrow
    rw [hone r hr]
    split <;> constructor <;> norm_num
  · simp only [prepare_for_quantum]
    exact List.map_congr_left hone

/-- Witness for C4 at a dataset holding one row of each label. -/
theorem C4_one_hot_witness :
    ((prepare_for_quantum dfW4).2).length = dfW4.length ∧
    (prepare_for_quantum dfW4).2
      = dfW4.map fun r => if r.target = 1 then [0, 1] else [1, 0] := by
  have h : ∀ r ∈ dfW4, r.target ≤ 1 := by
    intro r hr
    simp only [dfW4, List.mem_cons, List.not_mem_nil, or_false] at hr
    rcases hr with rfl | rfl <;> norm_num
  exact ⟨(C4_one_hot dfW4 h).1, (C4_one_hot dfW4 h).2.2⟩

/-- C3: with a non-degenerate column, the scaler is exactly the affine map
`x ↦ (x - min) / (max - min) * π`, the inverse affine map recovers the column
exactly, the column `[2, 4, 6, 8]` maps to `[0, π/3, 2π/3, π]`, and
`prepare_for_quantum` applies the scaler to each of the four feature columns
independently. -/
theorem C3_rescaling (col : List ℝ) (h : colMin col ≠ colMax col) :
    minmaxScale col
      = col.map (fun x => (x - colMin col) / (colMax col - colMin col) * Real.pi) ∧
    (minmaxScale col).map
      (fun z => z / Real.pi * (colMax col - colMin col) + colMin col) = col ∧
    minmaxScale [2, 4, 6, 8] = [0, Real.pi / 3, 2 * Real.pi / 3, Real.pi] ∧
    ∀ df : List ModelRow, (prepare_for_quantum df).1
      = zip4 (minmaxScale (df.map fun r => r.sst)) (minmaxScale (df.map fun r => r.rh))
          (minmaxScale (df.map fun r => r.sp)) (minmaxScale (df.map fun r => r.ssrd)) := by
  have hd : colMax col - colMin col ≠ 0 := sub_ne_zero.mpr (Ne.symm h)
  have h1 : minmaxScale col
      = col.map fun x => (x - colMin col) / (colMax col - colMin col) * Real.pi := by
    simp [minmaxScale, hd]
  refine ⟨h1, ?_, ?_, fun df => rfl⟩
  · rw [h1, List.map_map]
    have hcomp : ((fun z => z / Real.pi * (colMax col - colMin col) + colMin col) ∘
        fun x => (x - colMin col) / (colMax col - colMin col) * Real.pi) = id := by
      funext x
      simp only [Function.comp, id]
      field_simp
      ring
    rw [hcomp, List.map_id]
  · have hmin : colMin [2, 4, 6, 8] = (2 : ℝ) := by
      norm_num [colMin, List.foldl, min_def]
    have hmax : colMax [2, 4, 6, 8] = (8 : ℝ) := by
      norm_num [colMax, List.foldl, max_def]
    have hd6 : ((8 : ℝ) - 2 = 0) = False := by norm_num
    simp only [minmaxScale, hmin, hmax, hd6, if_false, List.map_cons, List.map_nil,
      List.cons.injEq, and_true]
    norm_num
    exact ⟨by ring, by ring⟩

/-- Witness for C3 at the column `[2, 4, 6, 8]`. -/
theorem C3_rescaling_witness :
    minmaxScale [2, 4, 6, 8]
      = ([2, 4, 6, 8] : List ℝ).map
          (fun x => (x - colMin [2, 4, 6, 8]) / (colMax [2, 4, 6, 8] - colMin [2, 4, 6, 8])
            * Real.pi) ∧
    (minmaxScale [2, 4, 6, 8]).map
      (fun z => z / Real.pi * (colMax [2, 4, 6, 8] - colMin [2, 4, 6, 8])
        + colMin [2, 4, 6, 8]) = [2, 4, 6, 8] ∧
    minmaxScale [2, 4, 6, 8] = [0, Real.pi / 3, 2 * Real.pi / 3, Real.pi] := by
  have H := C3_rescaling [2, 4, 6, 8]
    (by norm_num [colMin, colMax, List.foldl, min_def, max_def])
  exact ⟨H.1, H.2.1, H.2.2.1⟩

/-- Number of SST rows carrying a given timestamp, when timestamps are
duplicate-free: one if present, zero otherwise. -/
theorem filter_key_length (ss : List SstRow) (hnd : (ss.map fun s => s.time).Nodup)
    (t : ℤ) :
    (ss.filter fun s => s.time == t).length
      = if t ∈ ss.map (fun s => s.time) then 1 else 0 := by
  induction ss with
  | nil => simp
  | cons s ss ih =>
    rw [List.map_cons, List.nodup_cons] at hnd
    by_cases h : s.time = t
    · subst h
      have hnil : (ss.filter fun x => x.time == s.time) = [] :=
        List.filter_eq_nil_iff.mpr fun a ha => by
          simp only [beq_iff_eq]
          exact fun hc => hnd.1 (hc ▸ List.mem_map_of_mem (fun x => x.time) ha)
      simp [List.filter_cons, hnil]
    · have hne : (s.time == t) = false := beq_eq_false_iff_ne.mpr h
      simp only [List.filter_cons, hne, Bool.false_eq_true, if_false, ih hnd.2,
        List.mem_cons]
      have : ¬t = s.time := fun hc => h hc.symm
      simp [this]

/-- C7: the join keeps, in the local series' original order, exactly the local
timestamps that also occur in the teleconnection series; a timestamp survives
iff it occurs on both sides; local `{1,2,3}` joined with `{2,3,4}` gives
exactly `{2,3}` in order. -/
theorem C7_join_semantics (b : Bool) (us : List LocalRow) (ss : List SstRow)
    (hnd : (ss.map fun s => s.time).Nodup) :
    ((joinRows b us ss).map (fun j => j.time)
      = (us.map fun u => u.time).filter fun t => (ss.map fun s => s.time).contains t) ∧
    (∀ t : ℤ, t ∈ (joinRows b us ss).map (fun j => j.time)
      ↔ t ∈ us.map (fun u => u.time) ∧ t ∈ ss.map (fun s => s.time)) ∧
    (joinRows true exLocal exSst).map (fun j => j.time) = [2, 3] := by
  have horder : (joinRows b us ss).map (fun j => j.time)
      = (us.map fun u => u.time).filter fun t => (ss.map fun s => s.time).contains t := by
    induction us with
    | nil => rfl
    | cons u us ih =>
      have hcons : (joinRows b (u :: us) ss).map (fun j => j.time)
          = ((ss.filter fun s => s.time == u.time).map fun _ => u.time)
            ++ (joinRows b us ss).map (fun j => j.time) := by
        simp only [joinRows, List.flatMap_cons, List.map_append, List.map_map]
        rfl
      have hconstmap : ((ss.filter fun s => s.time == u.time).map fun _ => u.time)
          = List.replicate (ss.filter fun s => s.time == u.time).length u.time := by
        simp [List.map_const']
      rw [hcons, ih, List.map_cons, List.filter_cons, hconstmap,
        filter_key_length ss hnd u.time]
      by_cases hc : u.time ∈ ss.map (fun s => s.time)
      · have hcont : ((ss.map fun s => s.time).contains u.time) = true := by
          simp [hc]
        rw [if_pos hc, hcont]
        rfl
      · have hcont : ((ss.map fun s => s.time).contains u.time) = false := by
          simp [hc]
        rw [if_neg hc, hcont]
        rfl
  refine ⟨horder, ?_, rfl⟩
  intro t
  rw [horder, List.mem_filter]
  constructor
  · rintro ⟨h1, h2⟩
    exact ⟨h1, List.mem_of_elem_eq_true h2⟩
  · rintro ⟨h1, h2⟩
    exact ⟨h1, List.elem_eq_true_of_mem h2⟩

/-- Witness for C7 on the concrete example series. -/
theorem C7_join_semantics_witness :
    ((joinRows true exLocal exSst).map (fun j => j.time)
      = (exLocal.map fun u => u.time).filter
          fun t => (exSst.map fun s => s.time).contains t) ∧
    (joinRows true exLocal exSst).map (fun j => j.time) = [2, 3] := by
  have H := C7_join_semantics true exLocal exSst (by decide)
  exact ⟨H.1, H.2.2⟩

/-- A left fold of `min` never exceeds its initial accumulator. -/
theorem foldl_min_le_init (l : List ℝ) : ∀ a : ℝ, l.foldl min a ≤ a := by
  induction l with
  | nil => intro a; exact le_refl a
  | cons x l ih => intro a; exact le_trans (ih (min a x)) (min_le_left a x)

/-- A left fold of `min` never exceeds any list member. -/
theorem foldl_min_le_mem (l : List ℝ) : ∀ a x : ℝ, x ∈ l → l.foldl min a ≤ x := by
  induction l with
  | nil => intro a x hx; exact absurd hx (List.not_mem_nil x)
  | cons y l ih =>
    intro a x hx
    rcases List.mem_cons.mp hx with rfl | hx
    · exact le_trans (foldl_min_le_init l (min a x)) (min_le_right a x)
    · exact ih (min a y) x hx

/-- A left fold of `max` dominates its initial accumulator. -/
theorem init_le_foldl_max (l : List ℝ) : ∀ a : ℝ, a ≤ l.foldl max a := by
  induction l with
  | nil => intro a; exact le_refl a
  | cons x l ih => intro a; exact le_trans (le_max_left a x) (ih (max a x))

/-- A left fold of `max` dominates every list member. -/
theorem mem_le_foldl_max (l : List ℝ) : ∀ a x : ℝ, x ∈ l → x ≤ l.foldl max a := by
  induction l with
  | nil => intro a x hx; exact absurd hx (List.not_mem_nil x)
  | cons y l ih =>
    intro a x hx
    rcases List.mem_cons.mp hx with rfl | hx
    · exact le_trans (le_max_right a x) (init_le_foldl_max l (max a x))
    · exact ih (max a y) x hx

/-- The column minimum bounds every member from below. -/
theorem colMin_le_of_mem (col : List ℝ) (x : ℝ) (hx : x ∈ col) : colMin col ≤ x := by
  cases col with
  | nil => exact absurd hx (List.not_mem_nil x)
  | cons y l =>
    rcases List.mem_cons.mp hx with rfl | hx2
    · exact foldl_min_le_init l x
    · exact foldl_min_le_mem l y x hx2

/-- The column maximum bounds every member from above. -/
theorem le_colMax_of_mem (col : List ℝ) (x : ℝ) (hx : x ∈ col) : x ≤ colMax col := by
  cases col with
  | nil => exact absurd hx (List.not_mem_nil x)
  | cons y l =>
    rcases List.mem_cons.mp hx with rfl | hx2
    · exact init_le_foldl_max l x
    · exact mem_le_foldl_max l y x hx2

/-- Counterexample for C8 as stated: on a dataset whose `sst` column is
constant (min equals max), the encoder does not fail — it returns a normal
result in which the degenerate column is the constant 0. -/
theorem C8_counterexample :
    colMin (dfC8.map fun r => r.sst) = colMax (dfC8.map fun r => r.sst) ∧
    prepare_for_quantum dfC8
      = ([[0, 0, 0, 0], [0, Real.pi, Real.pi, Real.pi]], [[1, 0], [0, 1]]) := by
  have h11 : minmaxScale [1, 1] = [0, 0] := by
    norm_num [minmaxScale, colMin, colMax, List.foldl]
  have h01 : minmaxScale [0, 1] = [0, Real.pi] := by
    norm_num [minmaxScale, colMin, colMax, List.foldl, min_def, max_def]
  constructor
  · norm_num [dfC8, colMin, colMax, List.foldl]
  · simp only [prepare_for_quantum, dfC8, List.map_cons, List.map_nil]
    rw [h11, h01]
    simp [zip4, oneHot]

/-- C8 (amended): a zero-variance column is not an error: sklearn replaces the
zero range by 1, so the whole column is sent to the constant 0 (the lower end
of the feature range). -/
theorem C8_degenerate_column (col : List ℝ) (h : colMin col = colMax col) :
    minmaxScale col = List.replicate col.length 0 := by
  have hall : ∀ x ∈ col, x = colMin col := by
    intro x hx
    refine le_antisymm ?_ (colMin_le_of_mem col x hx)
    rw [h]
    exact le_colMax_of_mem col x hx
  have hd : (if colMax col - colMin col = 0 then (1 : ℝ) else colMax col - colMin col)
      = 1 := if_pos (by rw [h]; ring)
  refine List.eq_replicate_iff.mpr ⟨by simp [minmaxScale], ?_⟩
  intro b hb
  simp only [minmaxScale, hd] at hb
  obtain ⟨x, hx, rfl⟩ := List.mem_map.mp hb
  rw [hall x hx]
  simp

/-- Witness for C8 (amended) at the constant column `[1, 1]`. -/
theorem C8_degenerate_column_witness :
    minmaxScale [1, 1] = List.replicate 2 0 :=
  C8_degenerate_column [1, 1] (by norm_num [colMin, colMax, List.foldl])

/-- Degree-3 Taylor lower bound for the exponential at a nonnegative point. -/
theorem taylor4_le_exp {x : ℝ} (hx : 0 ≤ x) :
    1 + x + x ^ 2 / 2 + x ^ 3 / 6 ≤ Real.exp x := by
  have h := Real.sum_le_exp_of_nonneg hx 4
  have he : (∑ i ∈ Finset.range 4, x ^ i / (Nat.factorial i : ℝ))
      = 1 + x + x ^ 2 / 2 + x ^ 3 / 6 := by
    simp [Finset.sum_range_succ, Nat.factorial]
  rw [he] at h
  exact h

/-- Degree-3 Taylor upper bound with remainder for the exponential on
`[0, 1]`. -/
theorem exp_le_taylor4 {x : ℝ} (h0 : 0 ≤ x) (h1 : x ≤ 1) :
    Real.exp x ≤ 1 + x + x ^ 2 / 2 + x ^ 3 / 6 + x ^ 4 * 5 / 96 := by
  have h := Real.exp_bound' h0 h1 (n := 4) (by norm_num)
  have he : (∑ i ∈ Finset.range 4, x ^ i / (Nat.factorial i : ℝ))
      = 1 + x + x ^ 2 / 2 + x ^ 3 / 6 := by
    simp [Finset.sum_range_succ, Nat.factorial]
  rw [he] at h
  norm_num [Nat.factorial] at h
  linarith

/-- C1: the formula of `calculate_relative_humidity` is exactly the stated
Magnus-Tetens quotient over temperatures converted to Celsius; it returns
exactly 100 whenever the two inputs coincide; and at `t2m = 298.15` K,
`d2m = 293.15` K it lies within 0.1 of 73.8. -/
theorem C1_relative_humidity :
    (∀ t d : ℝ, calculate_relative_humidity t d
      = 100 * (Real.exp ((17.625 * (d - 273.15)) / (243.04 + (d - 273.15)))
          / Real.exp ((17.625 * (t - 273.15)) / (243.04 + (t - 273.15))))) ∧
    (∀ t : ℝ, calculate_relative_humidity t t = 100) ∧
    |calculate_relative_humidity 298.15 293.15 - 73.8| ≤ 0.1 := by
  refine ⟨fun t d => rfl, fun t => ?_, ?_⟩
  · simp only [calculate_relative_humidity]
    rw [div_self (Real.exp_ne_zero _), mul_one]
  · have hrh : calculate_relative_humidity 298.15 293.15
        = 100 * Real.exp (-(440.625 / 268.04 - 352.5 / 263.04)) := by
      simp only [calculate_relative_humidity]
      rw [← Real.exp_sub]
      norm_num
    have hy0 : (0 : ℝ) ≤ 440.625 / 268.04 - 352.5 / 263.04 := by norm_num
    have hlow : (1.3545 : ℝ) ≤ Real.exp (440.625 / 268.04 - 352.5 / 263.04) := by
      calc (1.3545 : ℝ)
          ≤ 1 + 0.30377 + 0.30377 ^ 2 / 2 + 0.30377 ^ 3 / 6 := by norm_num
        _ ≤ 1 + (440.625 / 268.04 - 352.5 / 263.04)
              + (440.625 / 268.04 - 352.5 / 263.04) ^ 2 / 2
              + (440.625 / 268.04 - 352.5 / 263.04) ^ 3 / 6 := by
            gcongr <;> norm_num
        _ ≤ Real.exp (440.625 / 268.04 - 352.5 / 263.04) := taylor4_le_exp hy0
    have hhigh : Real.exp (440.625 / 268.04 - 352.5 / 263.04) ≤ 1.3551 := by
      calc Real.exp (440.625 / 268.04 - 352.5 / 263.04)
          ≤ 1 + (440.625 / 268.04 - 352.5 / 263.04)
              + (440.625 / 268.04 - 352.5 / 263.04) ^ 2 / 2
              + (440.625 / 268.04 - 352.5 / 263.04) ^ 3 / 6
              + (440.625 / 268.04 - 352.5 / 263.04) ^ 4 * 5 / 96 :=
            exp_le_taylor4 hy0 (by norm_num)
        _ ≤ 1 + 0.30378 + 0.30378 ^ 2 / 2 + 0.30378 ^ 3 / 6
              + 0.30378 ^ 4 * 5 / 96 := by gcongr <;> norm_num
        _ ≤ 1.3551 := by norm_num
    have hpos : (0 : ℝ) < Real.exp (440.625 / 268.04 - 352.5 / 263.04) :=
      Real.exp_pos _
    have hinvlow : (1.3551 : ℝ)⁻¹ ≤ (Real.exp (440.625 / 268.04 - 352.5 / 263.04))⁻¹ :=
      inv_anti₀ hpos hhigh
    have hinvhigh : (Real.exp (440.625 / 268.04 - 352.5 / 263.04))⁻¹ ≤ (1.3545 : ℝ)⁻¹ :=
      inv_anti₀ (by norm_num) hlow
    rw [hrh, Real.exp_neg, abs_le]
    constructor
    · have hc : (73.7 : ℝ) ≤ 100 * (1.3551 : ℝ)⁻¹ := by norm_num
      nlinarith [hinvlow]
    · have hc : 100 * (1.3545 : ℝ)⁻¹ ≤ (73.9 : ℝ) := by norm_num
      nlinarith [hinvhigh]

/-- C2 (amended): a surviving row is labeled 1 exactly when its `t2m` strictly
exceeds `mean + 2 * stddev` where the standard deviation is the pandas default
sample standard deviation (`ddof = 1`, denominator `n - 1`), both computed
once over the non-NaN `t2m` cells of the whole joined series. -/
theorem C2_labeling (joined : List JoinedRow) (j : JoinedRow) (v : ℝ)
    (hmem : j ∈ joined) (hfour : fourPresent j = true) (ht : j.t2m = some v)
    (hlen : 2 ≤ (t2mCells joined).length) :
    toModelRow (thresholdOf joined) j ∈ buildModel joined ∧
    ((toModelRow (thresholdOf joined) j).target = 1 ↔
      (t2mCells joined).sum / (t2mCells joined).length
        + 2 * Real.sqrt (((t2mCells joined).map
            (fun x => (x - (t2mCells joined).sum / (t2mCells joined).length) ^ 2)).sum
          / (((t2mCells joined).length : ℝ) - 1)) < v) := by
  refine ⟨mem_buildModel joined j hmem hfour, ?_⟩
  have h1 : pandasMean (t2mCells joined)
      = some ((t2mCells joined).sum / (t2mCells joined).length) := by
    unfold pandasMean
    rw [if_neg (by omega)]
  have h2 : pandasStd (t2mCells joined)
      = some (Real.sqrt (((t2mCells joined).map
          (fun x => (x - (t2mCells joined).sum / (t2mCells joined).length) ^ 2)).sum
        / (((t2mCells joined).length : ℝ) - 1))) := by
    unfold pandasStd
    rw [if_neg (by omega)]
  have hth : thresholdOf joined
      = some ((t2mCells joined).sum / (t2mCells joined).length
        + 2 * Real.sqrt (((t2mCells joined).map
            (fun x => (x - (t2mCells joined).sum / (t2mCells joined).length) ^ 2)).sum
          / (((t2mCells joined).length : ℝ) - 1))) := by
    unfold thresholdOf
    rw [h1, h2]
  have htarget : (toModelRow (thresholdOf joined) j).target
      = labelOf (thresholdOf joined) j.t2m := rfl
  rw [htarget, hth, ht]
  simp only [labelOf]
  split
  next h => exact iff_of_true rfl h
  next h => exact iff_of_false (by norm_num) h

/-- Witness for C2 (amended) on a concrete two-row joined frame. -/
theorem C2_labeling_witness :
    toModelRow (thresholdOf joinedW) jW2 ∈ buildModel joinedW ∧
    ((toModelRow (thresholdOf joinedW) jW2).target = 1 ↔
      (t2mCells joinedW).sum / (t2mCells joinedW).length
        + 2 * Real.sqrt (((t2mCells joinedW).map
            (fun x => (x - (t2mCells joinedW).sum / (t2mCells joinedW).length) ^ 2)).sum
          / (((t2mCells joinedW).length : ℝ) - 1)) < 10) :=
  C2_labeling joinedW jW2 10 (by simp [joinedW]) rfl rfl (by decide)

/-- Counterexample for C2 as stated: on the six-row series with `t2m` values
`0, 0, 0, 0, 3, 9`, the population threshold `mean + 2 * popstd = 2 + 2√11`
is strictly below 9, so the stated rule labels the last row 1, yet the code
(pandas sample standard deviation, threshold `2 + 2√13.2`) labels every row 0. -/
theorem C2_counterexample :
    preprocess_data true true uber6 ss6
      = Except.ok (buildModel (joinRows true uber6.rows ss6)) ∧
    specPopulationThreshold (t2mCells (joinRows true uber6.rows ss6)) < 9 ∧
    ((buildModel (joinRows true uber6.rows ss6)).map fun r => r.target)
      = [0, 0, 0, 0, 0, 0] := by
  have hcells : t2mCells (joinRows true uber6.rows ss6) = [0, 0, 0, 0, 3, 9] := rfl
  refine ⟨rfl, ?_, ?_⟩
  · rw [hcells]
    have hstd : specPopulationStd [0, 0, 0, 0, 3, 9] = Real.sqrt 11 := by
      unfold specPopulationStd
      norm_num
    have hsqrt : Real.sqrt 11 < 3.5 := by
      rw [Real.sqrt_lt' (by norm_num : (0 : ℝ) < 3.5)]
      norm_num
    unfold specPopulationThreshold
    rw [hstd]
    norm_num
    linarith
  · have hfilter : (joinRows true uber6.rows ss6).filter fourPresent
        = joinRows true uber6.rows ss6 := rfl
    have hmean : pandasMean (t2mCells (joinRows true uber6.rows ss6)) = some 2 := by
      rw [hcells]
      unfold pandasMean
      norm_num
    have hstd2 : pandasStd (t2mCells (joinRows true uber6.rows ss6))
        = some (Real.sqrt (66 / 5)) := by
      rw [hcells]
      unfold pandasStd
      norm_num
    have hth : thresholdOf (joinRows true uber6.rows ss6)
        = some (2 + 2 * Real.sqrt (66 / 5)) := by
      unfold thresholdOf
      rw [hmean, hstd2]
    have hT : (9 : ℝ) ≤ 2 + 2 * Real.sqrt (66 / 5) := by
      have h35 : (3.5 : ℝ) ≤ Real.sqrt (66 / 5) := by
        rw [Real.le_sqrt' (by norm_num : (0 : ℝ) < 3.5)]
        norm_num
      linarith
    have hlab : ∀ w : ℝ, w ≤ 9 →
        labelOf (some (2 + 2 * Real.sqrt (66 / 5))) (some w) = 0 := by
      intro w hw
      simp only [labelOf]
      rw [if_neg (not_lt.mpr (hw.trans hT))]
    unfold buildModel
    rw [hfilter, hth, List.map_map]
    show List.map (fun j => labelOf (some (2 + 2 * Real.sqrt (66 / 5))) j.t2m)
        (joinRows true uber6.rows ss6) = [0, 0, 0, 0, 0, 0]
    have hmapcells : (joinRows true uber6.rows ss6).map (fun j => j.t2m)
        = [some 0, some 0, some 0, some 0, some 3, some 9] := rfl
    rw [show (fun j : JoinedRow => labelOf (some (2 + 2 * Real.sqrt (66 / 5))) j.t2m)
        = (labelOf (some (2 + 2 * Real.sqrt (66 / 5)))) ∘ (fun j : JoinedRow => j.t2m)
        from rfl, ← List.map_map, hmapcells]
    simp only [List.map_cons, List.map_nil]
    rw [hlab 0 (by norm_num), hlab 3 (by norm_num), hlab 9 (by norm_num)]
